import Mathlib

/-!
# Verification of the MQClient message-queue client library

Shallow embedding of the core of the MQClient library
(`mqclient/queue.py`, `mqclient/backend_interface.py`,
`mqclient/broker_clients/utils.py`, `mqclient/broker_clients/rabbitmq.py`)
together with proofs of the specification's claims about it.

Conventions of the embedding:
* Python `await`-able broker calls that may raise are modelled by an
  explicit outcome value (`Except BrokerErr Unit` and the like) supplied
  as an argument: the argument records what the external broker adapter
  did when the code called it.
* Side effects on the broker (adapter-level ack/nack calls, fetches,
  closes) are recorded in an event trace (`List Ev`): the order of events
  in the trace is the order in which the Python code performs the calls.
* Exceptions raised by the embedded code are returned as values
  (`Option`/`Except`), never lost.
-/

/-- Opaque broker-adapter error (the exception raised by e.g.
`sub.ack_message`); only its identity matters to the core. -/
def BrokerErr : Type := Nat

instance : DecidableEq BrokerErr := fun a b => instDecidableEqNat a b

instance : Repr BrokerErr := instReprNat

/-- `Message.AckStatus` from `backend_interface.py`:
NONE | ACKED | NACKED, initial value NONE. -/
inductive AckStatus where
  | NONE
  | ACKED
  | NACKED
deriving DecidableEq, Repr

/-- The ack-layer exceptions of `queue.py` / `backend_interface.py`.
`cause` is `some e` when the exception wraps (chains) an underlying
adapter error `e`, `none` for an illegal-transition exception raised
without an adapter call. -/
inductive AckErr where
  | ackExn (cause : Option BrokerErr)
  | nackExn (cause : Option BrokerErr)
deriving DecidableEq, Repr

/-- A delivered message as the ack state machine sees it:
its broker id and its current `_ack_status`. -/
structure MsgSt where
  id : Nat
  status : AckStatus
deriving DecidableEq, Repr

/-- Broker-visible events, in the order the code performs them. -/
inductive Ev where
  /-- `sub.ack_message(msg)` was called (adapter-level ack). -/
  | ackMsg (id : Nat)
  /-- `sub.reject_message(msg)` was called (adapter-level nack). -/
  | nackMsg (id : Nat)
  /-- the context fetched the next message from the generator. -/
  | fetchNext
  /-- `sub.get_message(timeout_millis)` was called. -/
  | getMessage (timeoutMillis : Nat)
  /-- `sub.close()` was called. -/
  | closeSub
  /-- the exception was thrown into the message generator (`gen.athrow`). -/
  | genAthrow
deriving DecidableEq, Repr

/-- `Queue._safe_ack` (queue.py lines 162-179).
`ackCall` is the outcome of `sub.ack_message(msg)` at this point in time.
Returns the message (with its possibly-updated `_ack_status`), the raised
exception if any, and the adapter calls performed. -/
def safe_ack (ackCall : Except BrokerErr Unit) (m : MsgSt) :
    MsgSt × Option AckErr × List Ev :=
  match m.status with
  | AckStatus.NONE =>
    match ackCall with
    | Except.ok _ => ({ m with status := AckStatus.ACKED }, none, [Ev.ackMsg m.id])
    | Except.error e => (m, some (AckErr.ackExn (some e)), [Ev.ackMsg m.id])
  | AckStatus.NACKED => (m, some (AckErr.ackExn none), [])
  | AckStatus.ACKED => (m, none, [])

/-- `Queue._safe_nack` (queue.py lines 191-208).
`nackCall` is the outcome of `sub.reject_message(msg)`. -/
def safe_nack (nackCall : Except BrokerErr Unit) (m : MsgSt) :
    MsgSt × Option AckErr × List Ev :=
  match m.status with
  | AckStatus.NONE =>
    match nackCall with
    | Except.ok _ => ({ m with status := AckStatus.NACKED }, none, [Ev.nackMsg m.id])
    | Except.error e => (m, some (AckErr.nackExn (some e)), [Ev.nackMsg m.id])
  | AckStatus.NACKED => (m, none, [])
  | AckStatus.ACKED => (m, some (AckErr.nackExn none), [])

/-- One request to the ack state machine: an ack or a nack, together with
the outcome the broker adapter would produce if called. -/
structure AckReq where
  isAck : Bool
  adapterResult : Except BrokerErr Unit

/-- Route one request through `_safe_ack` / `_safe_nack` (code side). -/
def ackStep (m : MsgSt) (r : AckReq) : MsgSt × Option AckErr × List Ev :=
  if r.isAck then safe_ack r.adapterResult m else safe_nack r.adapterResult m

/-- Run a sequence of requests through the code's ack state machine,
keeping the message state across requests (a raised exception leaves the
state as it was). -/
def runAck (m : MsgSt) (reqs : List AckReq) : MsgSt :=
  reqs.foldl (fun m r => (ackStep m r).1) m

/-- Modelled from the spec: the transition table of section 4.5, written
from the spec's words.  Row (current, requested) gives the action; an
adapter failure leaves the state unchanged. -/
def specTableStep (st : AckStatus) (r : AckReq) : AckStatus :=
  match st, r.isAck with
  | AckStatus.NONE, true =>
    match r.adapterResult with
    | Except.ok _ => AckStatus.ACKED
    | Except.error _ => AckStatus.NONE
  | AckStatus.NONE, false =>
    match r.adapterResult with
    | Except.ok _ => AckStatus.NACKED
    | Except.error _ => AckStatus.NONE
  | AckStatus.ACKED, true => AckStatus.ACKED
  | AckStatus.ACKED, false => AckStatus.ACKED
  | AckStatus.NACKED, true => AckStatus.NACKED
  | AckStatus.NACKED, false => AckStatus.NACKED

/-- Run a sequence of requests through the spec's section-4.5 table. -/
def runSpecTable (st : AckStatus) (reqs : List AckReq) : AckStatus :=
  reqs.foldl specTableStep st

lemma ackStep_id (m : MsgSt) (r : AckReq) : (ackStep m r).1.id = m.id := by
  rcases m with ⟨i, st⟩
  rcases r with ⟨isAck, res⟩
  cases isAck <;> cases st <;> cases res <;>
    simp [ackStep, safe_ack, safe_nack]

lemma ackStep_status (m : MsgSt) (r : AckReq) :
    (ackStep m r).1.status = specTableStep m.status r := by
  rcases m with ⟨i, st⟩
  rcases r with ⟨isAck, res⟩
  cases isAck <;> cases st <;> cases res <;>
    simp [ackStep, safe_ack, safe_nack, specTableStep]

lemma runAck_status (m : MsgSt) (reqs : List AckReq) :
    (runAck m reqs).status = runSpecTable m.status reqs := by
  induction reqs generalizing m with
  | nil => rfl
  | cons r rs ih =>
    simp only [runAck, runSpecTable, List.foldl_cons]
    have h := ih ((ackStep m r).1)
    simp only [runAck, runSpecTable] at h
    rw [h, ackStep_status]

/-- Claim C1: for every `Message` and every sequence of ack/nack requests
through `_safe_ack` / `_safe_nack`, the resulting `ack_status` follows the
section-4.5 table (first conjunct, over arbitrary sequences); from NONE an
ack/nack sets ACKED/NACKED only after the adapter call succeeds; ack on
ACKED and nack on NACKED are no-ops; ack on NACKED raises `AckException`
and nack on ACKED raises `NackException` without touching the adapter; and
an adapter failure leaves `ack_status` unchanged and is wrapped as
`AckException` / `NackException` with the cause chained. -/
theorem ack_state_machine_follows_spec_table :
    (∀ (m : MsgSt) (reqs : List AckReq),
      (runAck m reqs).status = runSpecTable m.status reqs)
    ∧ (∀ i, safe_ack (Except.ok ()) ⟨i, AckStatus.NONE⟩ =
        (⟨i, AckStatus.ACKED⟩, none, [Ev.ackMsg i]))
    ∧ (∀ i, safe_nack (Except.ok ()) ⟨i, AckStatus.NONE⟩ =
        (⟨i, AckStatus.NACKED⟩, none, [Ev.nackMsg i]))
    ∧ (∀ i e, safe_ack (Except.error e) ⟨i, AckStatus.NONE⟩ =
        (⟨i, AckStatus.NONE⟩, some (AckErr.ackExn (some e)), [Ev.ackMsg i]))
    ∧ (∀ i e, safe_nack (Except.error e) ⟨i, AckStatus.NONE⟩ =
        (⟨i, AckStatus.NONE⟩, some (AckErr.nackExn (some e)), [Ev.nackMsg i]))
    ∧ (∀ i c, safe_ack c ⟨i, AckStatus.ACKED⟩ = (⟨i, AckStatus.ACKED⟩, none, []))
    ∧ (∀ i c, safe_nack c ⟨i, AckStatus.NACKED⟩ = (⟨i, AckStatus.NACKED⟩, none, []))
    ∧ (∀ i c, safe_ack c ⟨i, AckStatus.NACKED⟩ =
        (⟨i, AckStatus.NACKED⟩, some (AckErr.ackExn none), []))
    ∧ (∀ i c, safe_nack c ⟨i, AckStatus.ACKED⟩ =
        (⟨i, AckStatus.ACKED⟩, some (AckErr.nackExn none), [])) := by
  refine ⟨runAck_status, ?_, ?_, ?_, ?_, ?_, ?_, ?_, ?_⟩ <;>
    intros <;> simp [safe_ack, safe_nack]

/-- The slice of the `Queue` configuration the sub context reads. -/
structure QueueCfg where
  exceptErrors : Bool
  timeout : Nat

/-- The configuration `__aenter__` hands to `Sub.message_generator`. -/
structure GenCfg where
  propagate_error : Bool

/-- `QueueSubResource.__aenter__` (queue.py lines 417-436): the message
generator is started with `propagate_error=(not self.queue.except_errors)`. -/
def subAenterGen (q : QueueCfg) : GenCfg :=
  ⟨!q.exceptErrors⟩

/-- Result of one `QueueSubResource.__anext__` call. -/
inductive AnextOutcome where
  /-- returned `self.msg.data` for the freshly fetched message. -/
  | yielded (id : Nat)
  /-- the generator stopped; `StopAsyncIteration` re-raised. -/
  | stopped
  /-- `_safe_ack` raised; the exception propagates out of `__anext__`. -/
  | raisedAck (e : AckErr)
deriving DecidableEq, Repr

/-- Fetch from the message generator (`self._gen.__anext__()` inside
`__anext__`): yields the next id or stops at end of stream; on stop
`self.msg` is cleared. -/
def subFetch (stream : List Nat) :
    AnextOutcome × Option MsgSt × List Nat × List Ev :=
  match stream with
  | [] => (AnextOutcome.stopped, none, [], [Ev.fetchNext])
  | j :: rest => (AnextOutcome.yielded j, some ⟨j, AckStatus.NONE⟩, rest, [Ev.fetchNext])

/-- Prepend earlier events to a fetch result. -/
def prependEvs (evs : List Ev)
    (r : AnextOutcome × Option MsgSt × List Nat × List Ev) :
    AnextOutcome × Option MsgSt × List Nat × List Ev :=
  (r.1, r.2.1, r.2.2.1, evs ++ r.2.2.2)

/-- `QueueSubResource.__anext__` (queue.py lines 516-549): ack the
previous message before getting a new one (unless it was already nacked),
then fetch.  `ackCall` is the adapter outcome were `sub.ack_message`
called; `cur` is `self.msg`; `stream` is what the generator will yield. -/
def subAnext (ackCall : Except BrokerErr Unit) (cur : Option MsgSt)
    (stream : List Nat) :
    AnextOutcome × Option MsgSt × List Nat × List Ev :=
  match cur with
  | some m =>
    if m.status ≠ AckStatus.NACKED then
      match safe_ack ackCall m with
      | (m', some e, evs) => (AnextOutcome.raisedAck e, some m', stream, evs)
      | (_, none, evs) => prependEvs evs (subFetch stream)
    else
      subFetch stream
  | none => subFetch stream

/-- Result of `QueueSubResource.__aexit__`. -/
inductive AexitOutcome where
  /-- returned `True`: the user's exception (if any) is suppressed. -/
  | suppressed
  /-- returned `False`: the user's exception propagates to the caller. -/
  | propagated
  /-- `_safe_ack` / `_safe_nack` raised inside `__aexit__`. -/
  | raisedAckErr (e : AckErr)
deriving DecidableEq, Repr

/-- `QueueSubResource.__aexit__` (queue.py lines 442-494).
`userExc` is whether the `with` block is exiting with a user exception;
`ackCall` / `nackCall` are the adapter outcomes were the corresponding
call made; `cur` is `self.msg`.  On a user exception the current message
is nacked and the exception is handed to the generator (`athrow`), whose
`propagate_error` flag decides whether `__aexit__` returns `False`
(re-raise) or `True` (suppress); on a good exit the current message is
acked unless already nacked.  The consumer is closed afterwards; an
ack/nack failure propagates before the close is reached. -/
def subAexit (gen : GenCfg) (userExc : Bool)
    (ackCall nackCall : Except BrokerErr Unit) (cur : Option MsgSt) :
    AexitOutcome × Option MsgSt × List Ev :=
  if userExc then
    match cur with
    | some m =>
      match safe_nack nackCall m with
      | (m', some e, evs) => (AexitOutcome.raisedAckErr e, some m', evs)
      | (m', none, evs) =>
        if gen.propagate_error then
          (AexitOutcome.propagated, some m', evs ++ [Ev.genAthrow, Ev.closeSub])
        else
          (AexitOutcome.suppressed, some m', evs ++ [Ev.genAthrow, Ev.closeSub])
    | none =>
      if gen.propagate_error then
        (AexitOutcome.propagated, none, [Ev.genAthrow, Ev.closeSub])
      else
        (AexitOutcome.suppressed, none, [Ev.genAthrow, Ev.closeSub])
  else
    match cur with
    | some m =>
      if m.status ≠ AckStatus.NACKED then
        match safe_ack ackCall m with
        | (m', some e, evs) => (AexitOutcome.raisedAckErr e, some m', evs)
        | (m', none, evs) =>
          (AexitOutcome.suppressed, some m', evs ++ [Ev.closeSub])
      else
        (AexitOutcome.suppressed, some m, [Ev.closeSub])
    | none => (AexitOutcome.suppressed, none, [Ev.closeSub])

/-- `QueueSubResource.nack_current` (queue.py lines 560-567): nack the
most recently yielded message; no-op when no message was yielded. -/
def nack_current (nackCall : Except BrokerErr Unit) (cur : Option MsgSt) :
    Option MsgSt × Option AckErr × List Ev :=
  match cur with
  | none => (none, none, [])
  | some m =>
    match safe_nack nackCall m with
    | (m', err, evs) => (some m', err, evs)

/-- Claim C2: on every `__anext__` call, a previously yielded message
whose ack status is still NONE is acked (adapter ack) strictly before the
next message is fetched; when there is no unresolved previous message no
adapter ack happens; and on every good exit of the context (including
`break` with a still-unresolved yielded message) `__aexit__` acks that
message before closing the consumer. -/
theorem open_sub_acks_before_fetch_and_on_good_exit :
    (∀ i : Nat, subAnext (Except.ok ()) (some ⟨i, AckStatus.NONE⟩) [] =
      (AnextOutcome.stopped, none, [], [Ev.ackMsg i, Ev.fetchNext]))
    ∧ (∀ (i j : Nat) (rest : List Nat),
        subAnext (Except.ok ()) (some ⟨i, AckStatus.NONE⟩) (j :: rest) =
      (AnextOutcome.yielded j, some ⟨j, AckStatus.NONE⟩, rest,
        [Ev.ackMsg i, Ev.fetchNext]))
    ∧ (∀ (c : Except BrokerErr Unit) (stream : List Nat),
        (subAnext c none stream).2.2.2 = [Ev.fetchNext])
    ∧ (∀ (gen : GenCfg) (nc : Except BrokerErr Unit) (i : Nat),
        subAexit gen false (Except.ok ()) nc (some ⟨i, AckStatus.NONE⟩) =
      (AexitOutcome.suppressed, some ⟨i, AckStatus.ACKED⟩,
        [Ev.ackMsg i, Ev.closeSub])) := by
  refine ⟨?_, ?_, ?_, ?_⟩
  · intro i; simp [subAnext, safe_ack, prependEvs, subFetch]
  · intro i j rest; simp [subAnext, safe_ack, prependEvs, subFetch]
  · intro c stream; cases stream <;> simp [subAnext, subFetch]
  · intro gen nc i; simp [subAexit, safe_ack]

/-- Claim C3: the message generator is started with
`propagate_error = not except_errors`; and when user code raises with a
yielded message still unresolved, `__aexit__` nacks that message, hands
the exception to the generator (`athrow`), closes the consumer, and the
exception propagates to the outer caller (`__aexit__` returns `False`)
exactly when `except_errors` is false. -/
theorem open_sub_user_exception_nacks_and_propagates_iff :
    (∀ q : QueueCfg, (subAenterGen q).propagate_error = !q.exceptErrors)
    ∧ (∀ (q : QueueCfg) (ac : Except BrokerErr Unit) (i : Nat),
        subAexit (subAenterGen q) true ac (Except.ok ())
            (some ⟨i, AckStatus.NONE⟩) =
          (if q.exceptErrors then AexitOutcome.suppressed
            else AexitOutcome.propagated,
           some ⟨i, AckStatus.NACKED⟩,
           [Ev.nackMsg i, Ev.genAthrow, Ev.closeSub]))
    ∧ (∀ (q : QueueCfg) (ac : Except BrokerErr Unit) (i : Nat),
        (subAexit (subAenterGen q) true ac (Except.ok ())
            (some ⟨i, AckStatus.NONE⟩)).1 = AexitOutcome.propagated
          ↔ q.exceptErrors = false) := by
  refine ⟨fun q => rfl, ?_, ?_⟩
  · intro q ac i
    rcases q with ⟨ee, t⟩
    cases ee <;> simp [subAexit, subAenterGen, safe_nack]
  · intro q ac i
    rcases q with ⟨ee, t⟩
    cases ee <;> simp [subAexit, subAenterGen, safe_nack]

/-- Claim C10: after `nack_current` succeeds on the current message, its
status is NACKED; a subsequent `__anext__` skips the automatic ack (no
adapter ack call, no exception) and just fetches, and a clean `__aexit__`
skips the ack as well (status stays NACKED, only the close happens, and no
`AckException` is raised on the good exit). -/
theorem nack_current_prevents_later_auto_ack :
    (∀ i : Nat, nack_current (Except.ok ()) (some ⟨i, AckStatus.NONE⟩) =
      (some ⟨i, AckStatus.NACKED⟩, none, [Ev.nackMsg i]))
    ∧ (∀ (c : Except BrokerErr Unit) (i : Nat) (stream : List Nat),
        subAnext c (some ⟨i, AckStatus.NACKED⟩) stream = subFetch stream)
    ∧ (∀ (gen : GenCfg) (ac nc : Except BrokerErr Unit) (i : Nat),
        subAexit gen false ac nc (some ⟨i, AckStatus.NACKED⟩) =
      (AexitOutcome.suppressed, some ⟨i, AckStatus.NACKED⟩, [Ev.closeSub])) := by
  refine ⟨?_, ?_, ?_⟩
  · intro i; simp [nack_current, safe_nack]
  · intro c i stream; simp [subAnext]
  · intro gen ac nc i; simp [subAexit]

/-- Model of a Python value as it can appear as message `data` or in the
`headers` mapping: atoms, lists (as cons cells) and string-keyed dicts
(as cons cells). -/
inductive PyValue where
  | pynone
  | pybool (b : Bool)
  | pyint (n : Int)
  | pystr (s : String)
  | pybytes (bs : List Nat)
  | pynil
  | pycons (hd tl : PyValue)
  | pydnil
  | pydcons (key : String) (val tl : PyValue)
deriving DecidableEq, Repr

/-- One token of the serialized byte stream (the pickle wire format is
modelled at token granularity: a tag plus its immediate operand). -/
inductive Tok where
  | tNone
  | tBool (b : Bool)
  | tInt (n : Int)
  | tStr (s : String)
  | tBytes (bs : List Nat)
  | tNil
  | tCons
  | tDNil
  | tDCons (key : String)
deriving DecidableEq, Repr

/-- Serialize a `PyValue` to its token stream (model of `pickle.dumps`). -/
def pickleEncode : PyValue → List Tok
  | PyValue.pynone => [Tok.tNone]
  | PyValue.pybool b => [Tok.tBool b]
  | PyValue.pyint n => [Tok.tInt n]
  | PyValue.pystr s => [Tok.tStr s]
  | PyValue.pybytes bs => [Tok.tBytes bs]
  | PyValue.pynil => [Tok.tNil]
  | PyValue.pycons h t => Tok.tCons :: (pickleEncode h ++ pickleEncode t)
  | PyValue.pydnil => [Tok.tDNil]
  | PyValue.pydcons k v t => Tok.tDCons k :: (pickleEncode v ++ pickleEncode t)

/-- Nesting depth of a `PyValue` (fuel bound for the decoder). -/
def pyDepth : PyValue → Nat
  | PyValue.pycons h t => max (pyDepth h) (pyDepth t) + 1
  | PyValue.pydcons _ v t => max (pyDepth v) (pyDepth t) + 1
  | _ => 0

/-- Fuelled decoder for the token stream (model of `pickle.loads`):
returns the decoded value and the unread remainder. -/
def pickleDecodeF : Nat → List Tok → Option (PyValue × List Tok)
  | _, [] => none
  | _, Tok.tNone :: ts => some (PyValue.pynone, ts)
  | _, Tok.tBool b :: ts => some (PyValue.pybool b, ts)
  | _, Tok.tInt n :: ts => some (PyValue.pyint n, ts)
  | _, Tok.tStr s :: ts => some (PyValue.pystr s, ts)
  | _, Tok.tBytes bs :: ts => some (PyValue.pybytes bs, ts)
  | _, Tok.tNil :: ts => some (PyValue.pynil, ts)
  | _, Tok.tDNil :: ts => some (PyValue.pydnil, ts)
  | 0, Tok.tCons :: _ => none
  | Nat.succ f, Tok.tCons :: ts =>
    match pickleDecodeF f ts with
    | none => none
    | some (h, r) =>
      match pickleDecodeF f r with
      | none => none
      | some (t, r2) => some (PyValue.pycons h t, r2)
  | 0, Tok.tDCons _ :: _ => none
  | Nat.succ f, Tok.tDCons k :: ts =>
    match pickleDecodeF f ts with
    | none => none
    | some (v, r) =>
      match pickleDecodeF f r with
      | none => none
      | some (t, r2) => some (PyValue.pydcons k v t, r2)

lemma pickleDecodeF_encode (v : PyValue) :
    ∀ (fuel : Nat) (rest : List Tok), pyDepth v ≤ fuel →
      pickleDecodeF fuel (pickleEncode v ++ rest) = some (v, rest) := by
  induction v with
  | pynone => intro fuel rest _; cases fuel <;> rfl
  | pybool b => intro fuel rest _; cases fuel <;> rfl
  | pyint n => intro fuel rest _; cases fuel <;> rfl
  | pystr s => intro fuel rest _; cases fuel <;> rfl
  | pybytes bs => intro fuel rest _; cases fuel <;> rfl
  | pynil => intro fuel rest _; cases fuel <;> rfl
  | pydnil => intro fuel rest _; cases fuel <;> rfl
  | pycons h t ihh iht =>
    intro fuel rest hle
    match fuel with
    | 0 => exact absurd hle (by simp [pyDepth])
    | Nat.succ f =>
      have hh : pyDepth h ≤ f := by
        have := Nat.le_of_succ_le_succ hle
        exact le_trans (Nat.le_max_left _ _) this
      have ht : pyDepth t ≤ f := by
        have := Nat.le_of_succ_le_succ hle
        exact le_trans (Nat.le_max_right _ _) this
      simp only [pickleEncode, List.cons_append, List.append_eq, List.append_assoc, pickleDecodeF]
      simp only [ihh f (pickleEncode t ++ rest) hh, iht f rest ht]
  | pydcons k val t ihv iht =>
    intro fuel rest hle
    match fuel with
    | 0 => exact absurd hle (by simp [pyDepth])
    | Nat.succ f =>
      have hv : pyDepth val ≤ f := by
        have := Nat.le_of_succ_le_succ hle
        exact le_trans (Nat.le_max_left _ _) this
      have ht : pyDepth t ≤ f := by
        have := Nat.le_of_succ_le_succ hle
        exact le_trans (Nat.le_max_right _ _) this
      simp only [pickleEncode, List.cons_append, List.append_eq, List.append_assoc, pickleDecodeF]
      simp only [ihv f (pickleEncode t ++ rest) hv, iht f rest ht]

lemma pyDepth_lt_encode_length (v : PyValue) :
    pyDepth v < (pickleEncode v).length := by
  induction v with
  | pycons h t ihh iht =>
    simp only [pyDepth, pickleEncode, List.length_cons, List.length_append]
    omega
  | pydcons k val t ihv iht =>
    simp only [pyDepth, pickleEncode, List.length_cons, List.length_append]
    omega
  | _ => simp [pyDepth, pickleEncode]

/-- `pickle.dumps` at the envelope's granularity. -/
def pickle_dumps (v : PyValue) : List Tok := pickleEncode v

/-- `pickle.loads`: decode one value from the byte stream. -/
def pickle_loads (bs : List Tok) : Option PyValue :=
  match pickleDecodeF bs.length bs with
  | some (v, _) => some v
  | none => none

lemma pickle_loads_dumps (v : PyValue) : pickle_loads (pickle_dumps v) = some v := by
  have h := pickleDecodeF_encode v (pickleEncode v).length []
    (Nat.le_of_lt (pyDepth_lt_encode_length v))
  simp only [List.append_nil] at h
  simp [pickle_loads, pickle_dumps, h]

/-- Python `d[k]` on the dict model. -/
def dictGet (k : String) : PyValue → Option PyValue
  | PyValue.pydcons k2 v t => if k2 = k then some v else dictGet k t
  | _ => none

/-- `Message.serialize_data` (backend_interface.py lines 78-84):
`pickle.dumps({"headers": headers, "data": data}, protocol=4)`. -/
def serialize_data (data : PyValue) (headers : PyValue) : List Tok :=
  pickle_dumps (PyValue.pydcons "headers" headers
    (PyValue.pydcons "data" data PyValue.pydnil))

/-- `Message.deserialize_data` (backend_interface.py lines 74-76):
`pickle.loads(self.payload)["data"]`; `none` models the raised error on a
malformed payload. -/
def deserialize_data (payload : List Tok) : Option PyValue :=
  match pickle_loads payload with
  | some env => dictGet "data" env
  | none => none

/-- Claim C9: for every user value `data` and every header map `headers`,
deserializing the bytes produced by `serialize_data` yields `data` again,
and the envelope decodes to exactly the two-key mapping with the header
map intact. -/
theorem serialize_then_deserialize_roundtrip :
    ∀ (data headers : PyValue),
      deserialize_data (serialize_data data headers) = some data
      ∧ pickle_loads (serialize_data data headers) =
          some (PyValue.pydcons "headers" headers
            (PyValue.pydcons "data" data PyValue.pydnil))
      ∧ (pickle_loads (serialize_data data headers)).bind (dictGet "headers") =
          some headers := by
  intro data headers
  have h := pickle_loads_dumps (PyValue.pydcons "headers" headers
    (PyValue.pydcons "data" data PyValue.pydnil))
  refine ⟨?_, ?_, ?_⟩
  · simp [deserialize_data, serialize_data, h, dictGet]
  · simpa [serialize_data] using h
  · simp [serialize_data, h, dictGet]

/-- `Message` as `open_sub_one` consumes it: the broker id and the raw
payload (token stream of the serialized envelope). -/
structure Message where
  msg_id : Nat
  payload : List Tok
deriving DecidableEq, Repr

/-- The derived `data` attribute: the deserialized user value. -/
def Message.data (m : Message) : Option PyValue :=
  deserialize_data m.payload

/-- Result of running the `open_sub_one` context. -/
inductive SubOneOutcome where
  /-- no message was available: raised `EmptyQueueException`. -/
  | emptyQueue
  /-- the user block ran and returned normally; the message was acked. -/
  | done
  /-- the user block raised; the message was nacked; the exception was
  suppressed (`except_errors` true). -/
  | suppressedUserExc
  /-- the user block raised; the message was nacked; the exception was
  re-raised (`except_errors` false). -/
  | reraisedUserExc
  /-- `_safe_ack` / `_safe_nack` itself raised. -/
  | raisedAckErr (e : AckErr)
deriving DecidableEq, Repr

/-- `Queue.open_sub_one` (queue.py lines 241-292).  `fetched` is what
`sub.get_message(self.timeout * 1000)` returned; `userExc` is whether the
user block raised; `ackCall` / `nackCall` are the adapter outcomes were
the corresponding call made.  Returns the outcome, the value yielded to
the user block (the deserialized `msg.data`), and the event trace. -/
def open_sub_one (q : QueueCfg) (fetched : Option Message) (userExc : Bool)
    (ackCall nackCall : Except BrokerErr Unit) :
    SubOneOutcome × Option (Option PyValue) × List Ev :=
  let evGet := [Ev.getMessage (q.timeout * 1000)]
  match fetched with
  | none =>
    (SubOneOutcome.emptyQueue, none, evGet ++ [Ev.closeSub])
  | some msg =>
    let yielded := some (Message.data msg)
    if userExc then
      match safe_nack nackCall ⟨msg.msg_id, AckStatus.NONE⟩ with
      | (_, some e, evs) =>
        (SubOneOutcome.raisedAckErr e, yielded, evGet ++ evs ++ [Ev.closeSub])
      | (_, none, evs) =>
        if q.exceptErrors then
          (SubOneOutcome.suppressedUserExc, yielded, evGet ++ evs ++ [Ev.closeSub])
        else
          (SubOneOutcome.reraisedUserExc, yielded, evGet ++ evs ++ [Ev.closeSub])
    else
      match safe_ack ackCall ⟨msg.msg_id, AckStatus.NONE⟩ with
      | (_, some e, evs) =>
        (SubOneOutcome.raisedAckErr e, yielded, evGet ++ evs ++ [Ev.closeSub])
      | (_, none, evs) =>
        (SubOneOutcome.done, yielded, evGet ++ evs ++ [Ev.closeSub])

/-- Claim C5: `open_sub_one` fetches with the Queue's timeout (in
milliseconds); with no message it closes the consumer and raises
`EmptyQueueException` (no ack/nack); otherwise it yields the deserialized
user value, acks on normal exit of the user block, nacks on a user
exception, always closes the consumer afterwards, and re-raises the
user's exception exactly when `except_errors` is false. -/
theorem open_sub_one_behaviour :
    (∀ (q : QueueCfg) (userExc : Bool) (ac nc : Except BrokerErr Unit),
      open_sub_one q none userExc ac nc =
        (SubOneOutcome.emptyQueue, none,
          [Ev.getMessage (q.timeout * 1000), Ev.closeSub]))
    ∧ (∀ (q : QueueCfg) (msg : Message) (nc : Except BrokerErr Unit),
      open_sub_one q (some msg) false (Except.ok ()) nc =
        (SubOneOutcome.done, some (Message.data msg),
          [Ev.getMessage (q.timeout * 1000), Ev.ackMsg msg.msg_id, Ev.closeSub]))
    ∧ (∀ (q : QueueCfg) (msg : Message) (ac : Except BrokerErr Unit),
      open_sub_one q (some msg) true ac (Except.ok ()) =
        ((if q.exceptErrors then SubOneOutcome.suppressedUserExc
          else SubOneOutcome.reraisedUserExc),
         some (Message.data msg),
         [Ev.getMessage (q.timeout * 1000), Ev.nackMsg msg.msg_id, Ev.closeSub]))
    ∧ (∀ (q : QueueCfg) (msg : Message) (ac : Except BrokerErr Unit),
      (open_sub_one q (some msg) true ac (Except.ok ())).1 =
          SubOneOutcome.reraisedUserExc
        ↔ q.exceptErrors = false) := by
  refine ⟨?_, ?_, ?_, ?_⟩
  · intro q userExc ac nc; rfl
  · intro q msg nc; simp [open_sub_one, safe_ack]
  · intro q msg ac
    cases h : q.exceptErrors <;> simp [open_sub_one, safe_nack, h]
  · intro q msg ac
    cases h : q.exceptErrors <;> simp [open_sub_one, safe_nack, h]

/-- Events of the retry harness, in the order the code performs them. -/
inductive REv where
  /-- `factory()` was invoked to produce the operation for attempt `i`. -/
  | factoryCall (i : Nat)
  /-- the factory-produced operation was invoked (attempt `i`). -/
  | opCall (i : Nat)
  /-- `close()` was called between attempts; `swallowedError` records
  whether it raised (the error is swallowed either way). -/
  | closeCall (swallowedError : Bool)
  /-- `asyncio.sleep(retry_delay)`. -/
  | sleepCall (secs : Nat)
  /-- `connect()` was called between attempts. -/
  | connectCall
deriving DecidableEq, Repr

/-- The loop of `auto_retry_call` (broker_clients/utils.py lines 29-58),
starting at attempt `i` with `fuel` retries remaining.  `attempt j` is the
outcome of the factory-produced operation on attempt `j`;
`nonretriable_conditions` is the fatal classifier; `closeRaises j` is
whether the best-effort `close()` after attempt `j` raises (swallowed). -/
def autoRetryGo {T E : Type} (attempt : Nat → Except E T)
    (nonretriable_conditions : E → Bool) (closeRaises : Nat → Bool)
    (delay : Nat) : Nat → Nat → Except E T × List REv
  | i, 0 =>
    match attempt i with
    | Except.ok v => (Except.ok v, [REv.factoryCall i, REv.opCall i])
    | Except.error e => (Except.error e, [REv.factoryCall i, REv.opCall i])
  | i, Nat.succ f =>
    match attempt i with
    | Except.ok v => (Except.ok v, [REv.factoryCall i, REv.opCall i])
    | Except.error e =>
      if nonretriable_conditions e then
        (Except.error e, [REv.factoryCall i, REv.opCall i])
      else
        let r := autoRetryGo attempt nonretriable_conditions closeRaises delay
          (i + 1) f
        (r.1, [REv.factoryCall i, REv.opCall i, REv.closeCall (closeRaises i),
               REv.sleepCall delay, REv.connectCall] ++ r.2)

/-- `auto_retry_call` (broker_clients/utils.py lines 16-61): clamp
`retry_delay` to at least 1 and `retries` to at least 0, then run the
attempt loop from attempt 0. -/
def auto_retry_call {T E : Type} (attempt : Nat → Except E T)
    (nonretriable_conditions : E → Bool) (closeRaises : Nat → Bool)
    (retries retry_delay : Int) : Except E T × List REv :=
  autoRetryGo attempt nonretriable_conditions closeRaises
    (max retry_delay 1).toNat 0 (max retries 0).toNat

/-- Number of operation invocations (attempts) in a retry trace. -/
def opCount (evs : List REv) : Nat :=
  (evs.filter fun e => match e with | REv.opCall _ => true | _ => false).length

/-- The close/sleep/connect/fresh-factory block the harness performs
between attempt `j` and attempt `j+1`, followed by attempt `j`'s own
factory and op events in front. -/
def retryBlock (closeRaises : Nat → Bool) (delay : Nat) (j : Nat) : List REv :=
  [REv.factoryCall j, REv.opCall j, REv.closeCall (closeRaises j),
   REv.sleepCall delay, REv.connectCall]

/-- The first `k` full (failed, retried) attempt blocks starting at
attempt `i`. -/
def retryBlocksFrom (closeRaises : Nat → Bool) (delay : Nat) :
    Nat → Nat → List REv
  | _, 0 => []
  | i, Nat.succ k =>
    retryBlock closeRaises delay i ++ retryBlocksFrom closeRaises delay (i + 1) k

lemma opCount_append (a b : List REv) :
    opCount (a ++ b) = opCount a + opCount b := by
  simp [opCount, List.filter_append]

lemma autoRetryGo_opCount {T E : Type} (attempt : Nat → Except E T)
    (fatal : E → Bool) (cr : Nat → Bool) (d : Nat) :
    ∀ (fuel i : Nat), opCount (autoRetryGo attempt fatal cr d i fuel).2 ≤ fuel + 1 := by
  intro fuel
  induction fuel with
  | zero =>
    intro i
    cases h : attempt i <;> simp [autoRetryGo, h, opCount]
  | succ f ih =>
    intro i
    cases h : attempt i with
    | ok v => simp [autoRetryGo, h, opCount]
    | error e =>
      by_cases hf : fatal e
      · simp [autoRetryGo, h, hf, opCount]
      · have hih := ih (i + 1)
        have hblock : opCount [REv.factoryCall i, REv.opCall i,
            REv.closeCall (cr i), REv.sleepCall d, REv.connectCall] = 1 := by
          simp [opCount, List.filter]
        simp only [autoRetryGo, h, hf, Bool.false_eq_true, if_false,
          opCount_append, hblock]
        omega

lemma autoRetryGo_fatal {T E : Type} (attempt : Nat → Except E T)
    (fatal : E → Bool) (cr : Nat → Bool) (d : Nat) (i fuel : Nat) (e : E)
    (he : attempt i = Except.error e) (hf : fatal e = true) :
    autoRetryGo attempt fatal cr d i fuel =
      (Except.error e, [REv.factoryCall i, REv.opCall i]) := by
  cases fuel with
  | zero => simp [autoRetryGo, he]
  | succ f => simp [autoRetryGo, he, hf]

lemma autoRetryGo_all_fail {T E : Type} (attempt : Nat → Except E T)
    (fatal : E → Bool) (cr : Nat → Bool) (d : Nat) :
    ∀ (fuel i : Nat),
      (∀ k, k ≤ fuel → ∃ e, attempt (i + k) = Except.error e ∧ fatal e = false) →
      (autoRetryGo attempt fatal cr d i fuel).1 = attempt (i + fuel) := by
  intro fuel
  induction fuel with
  | zero =>
    intro i h
    obtain ⟨e, he, -⟩ := h 0 (le_refl 0)
    simp only [Nat.add_zero] at he
    simp [autoRetryGo, he]
  | succ f ih =>
    intro i h
    obtain ⟨e, he, hnf⟩ := h 0 (Nat.zero_le _)
    simp only [Nat.add_zero] at he
    have step := ih (i + 1) (fun k hk => by
      have := h (k + 1) (Nat.succ_le_succ hk)
      simpa [Nat.add_assoc, Nat.add_comm 1 k] using this)
    have harith : i + 1 + f = i + (f + 1) := by omega
    simp only [autoRetryGo, he, hnf, if_false]
    rw [step, harith]
    simp

lemma autoRetryGo_blocks {T E : Type} (attempt : Nat → Except E T)
    (fatal : E → Bool) (cr : Nat → Bool) (d : Nat) :
    ∀ (k i fuel : Nat),
      (∀ j, j < k → ∃ e, attempt (i + j) = Except.error e ∧ fatal e = false) →
      k ≤ fuel →
      (autoRetryGo attempt fatal cr d i fuel).2 =
        retryBlocksFrom cr d i k ++
          (autoRetryGo attempt fatal cr d (i + k) (fuel - k)).2 := by
  intro k
  induction k with
  | zero =>
    intro i fuel _ _
    simp [retryBlocksFrom]
  | succ k ih =>
    intro i fuel h hk
    obtain ⟨e, he, hnf⟩ := h 0 (Nat.succ_pos k)
    simp only [Nat.add_zero] at he
    cases fuel with
    | zero => exact absurd hk (Nat.not_succ_le_zero k)
    | succ f =>
      have step := ih (i + 1) f (fun j hj => by
        have := h (j + 1) (Nat.succ_lt_succ hj)
        simpa [Nat.add_assoc, Nat.add_comm 1 j] using this)
        (by omega)
      simp only [autoRetryGo, he, hnf, if_false, retryBlocksFrom, retryBlock,
        List.append_assoc]
      rw [step]
      have h1 : i + 1 + k = i + (k + 1) := by omega
      have h2 : f - k = Nat.succ f - (k + 1) := by omega
      rw [h1, h2]
      simp

/-- Claim C4: for `retries ≥ 0` and `retry_delay ≥ 1`, `auto_retry_call`
invokes the factory-produced operation at most `retries + 1` times; an
exception satisfying the fatal classifier is re-raised immediately with no
further attempts (and no reconnect cycle); if every attempt fails with a
retriable exception the last attempt's exception is re-raised; and before
each retried attempt the harness performs close (swallowing its error),
sleep `retry_delay`, connect, and a fresh factory call, in that order. -/
theorem auto_retry_call_bounds_and_reconnect {T E : Type}
    (attempt : Nat → Except E T) (fatal : E → Bool) (cr : Nat → Bool)
    (retries retry_delay : Int)
    (hr : 0 ≤ retries) (hd : 1 ≤ retry_delay) :
    (opCount (auto_retry_call attempt fatal cr retries retry_delay).2 ≤
      retries.toNat + 1)
    ∧ (∀ e, attempt 0 = Except.error e → fatal e = true →
        auto_retry_call attempt fatal cr retries retry_delay =
          (Except.error e, [REv.factoryCall 0, REv.opCall 0]))
    ∧ ((∀ k, k ≤ retries.toNat →
          ∃ e, attempt k = Except.error e ∧ fatal e = false) →
        (auto_retry_call attempt fatal cr retries retry_delay).1 =
          attempt retries.toNat)
    ∧ (∀ k, k ≤ retries.toNat →
        (∀ j, j < k → ∃ e, attempt j = Except.error e ∧ fatal e = false) →
        (auto_retry_call attempt fatal cr retries retry_delay).2 =
          retryBlocksFrom cr retry_delay.toNat 0 k ++
            (autoRetryGo attempt fatal cr retry_delay.toNat k
              (retries.toNat - k)).2) := by
  have hmaxr : (max retries 0).toNat = retries.toNat := by
    rw [max_eq_left hr]
  have hmaxd : (max retry_delay 1).toNat = retry_delay.toNat := by
    rw [max_eq_left hd]
  refine ⟨?_, ?_, ?_, ?_⟩
  · have := autoRetryGo_opCount attempt fatal cr (max retry_delay 1).toNat
      (max retries 0).toNat 0
    simpa [auto_retry_call, hmaxr] using this
  · intro e he hf
    have := autoRetryGo_fatal attempt fatal cr (max retry_delay 1).toNat 0
      (max retries 0).toNat e he hf
    simpa [auto_retry_call] using this
  · intro h
    have := autoRetryGo_all_fail attempt fatal cr (max retry_delay 1).toNat
      (max retries 0).toNat 0 (fun k hk => by
        have := h k (by omega)
        simpa using this)
    simpa [auto_retry_call, hmaxr] using this
  · intro k hk h
    have := autoRetryGo_blocks attempt fatal cr (max retry_delay 1).toNat k 0
      (max retries 0).toNat (fun j hj => by
        have := h j hj
        simpa using this) (by omega)
    simpa [auto_retry_call, hmaxr, hmaxd] using this

/-- Witness for C4 at a concrete input: one retriable failure then
success, with `retries = 2`, `retry_delay = 1`. -/
theorem auto_retry_call_bounds_and_reconnect_witness :
    (0 : Int) ≤ 2 ∧ (1 : Int) ≤ 1 ∧
    (opCount (auto_retry_call
        (fun i => if i = 0 then Except.error 7 else Except.ok 42)
        (fun _ => false) (fun _ => false) 2 1).2 ≤ (2 : Int).toNat + 1) := by
  refine ⟨by norm_num, le_refl 1, ?_⟩
  exact (auto_retry_call_bounds_and_reconnect
    (fun i => if i = 0 then Except.error 7 else Except.ok (42 : Nat))
    (fun _ => false) (fun _ => false) 2 1 (by norm_num) (le_refl 1)).1

/-- Modelled from the spec: the `ack_pending` bookkeeping of
`open_sub_manual_acking(ack_pending_limit)` / `ManualQueueSubResource`
(section 4.7.4).  This version of the resource (with `iter_messages()`,
the `_ack_pending` counter and `TooManyMessagesPendingAckException`) is
referenced by the repository's test suite but its implementation file is
not part of the source tree; the state here follows the spec's words:
`ack_pending` is an internal counter tracked as
(messages yielded) − (messages acked).  `yieldedN` / `ackedN` are the two
ghost tallies the spec defines the counter by. -/
structure ManualSt where
  ackPending : Nat
  yieldedN : Nat
  ackedN : Nat
deriving DecidableEq, Repr

/-- Operations a user can drive the manual resource with. -/
inductive ManualOp where
  /-- advance `iter_messages()` to the next message. -/
  | opYield
  /-- `ack(msg)` for a message that is still pending. -/
  | opAck
  /-- `nack(msg)` (does not reduce the acked tally). -/
  | opNack
deriving DecidableEq, Repr

/-- Modelled from the spec: one step of the manual-acking resource.
A yield that would push `ack_pending` over `ack_pending_limit` raises
`TooManyMessagesPendingAckException` (`true` in the second component)
instead of yielding and leaves the state unchanged; an ack of a pending
message moves the counter down; a nack leaves the counter untouched. -/
def manualStep (limit : Nat) (st : ManualSt) : ManualOp → ManualSt × Bool
  | ManualOp.opYield =>
    if st.ackPending + 1 > limit then (st, true)
    else ({ st with ackPending := st.ackPending + 1,
                    yieldedN := st.yieldedN + 1 }, false)
  | ManualOp.opAck =>
    if st.ackPending = 0 then (st, false)
    else ({ st with ackPending := st.ackPending - 1,
                    ackedN := st.ackedN + 1 }, false)
  | ManualOp.opNack => (st, false)

/-- Run a sequence of user operations from the fresh resource state. -/
def manualRun (limit : Nat) (ops : List ManualOp) : ManualSt :=
  ops.foldl (fun st op => (manualStep limit st op).1) ⟨0, 0, 0⟩

lemma manualStep_invariant (limit : Nat) (st : ManualSt) (op : ManualOp)
    (hcount : st.ackPending = st.yieldedN - st.ackedN)
    (hle : st.ackedN ≤ st.yieldedN) (hlim : st.ackPending ≤ limit) :
    (manualStep limit st op).1.ackPending =
        (manualStep limit st op).1.yieldedN - (manualStep limit st op).1.ackedN
    ∧ (manualStep limit st op).1.ackedN ≤ (manualStep limit st op).1.yieldedN
    ∧ (manualStep limit st op).1.ackPending ≤ limit := by
  cases op with
  | opYield =>
    by_cases h : st.ackPending + 1 > limit <;>
      simp [manualStep, h] <;> omega
  | opAck =>
    by_cases h : st.ackPending = 0 <;>
      simp [manualStep, h] <;> omega
  | opNack => exact ⟨hcount, hle, hlim⟩

lemma manualRun_invariant (limit : Nat) (ops : List ManualOp) :
    (manualRun limit ops).ackPending =
        (manualRun limit ops).yieldedN - (manualRun limit ops).ackedN
    ∧ (manualRun limit ops).ackedN ≤ (manualRun limit ops).yieldedN
    ∧ (manualRun limit ops).ackPending ≤ limit := by
  suffices h : ∀ (st : ManualSt),
      st.ackPending = st.yieldedN - st.ackedN → st.ackedN ≤ st.yieldedN →
      st.ackPending ≤ limit →
      (ops.foldl (fun st op => (manualStep limit st op).1) st).ackPending =
          (ops.foldl (fun st op => (manualStep limit st op).1) st).yieldedN -
            (ops.foldl (fun st op => (manualStep limit st op).1) st).ackedN
      ∧ (ops.foldl (fun st op => (manualStep limit st op).1) st).ackedN ≤
          (ops.foldl (fun st op => (manualStep limit st op).1) st).yieldedN
      ∧ (ops.foldl (fun st op => (manualStep limit st op).1) st).ackPending ≤
          limit by
    exact h ⟨0, 0, 0⟩ rfl (le_refl 0) (Nat.zero_le _)
  induction ops with
  | nil => intro st h1 h2 h3; exact ⟨h1, h2, h3⟩
  | cons op rest ih =>
    intro st h1 h2 h3
    obtain ⟨g1, g2, g3⟩ := manualStep_invariant limit st op h1 h2 h3
    simpa using ih ((manualStep limit st op).1) g1 g2 g3

/-- Claim C6 (spec-modelled): the manual-acking resource tracks
`ack_pending = yielded − acked` with `acked ≤ yielded`, never lets
`ack_pending` exceed `ack_pending_limit` along any user operation
sequence, and a `next` yield raises `TooManyMessagesPendingAckException`
instead of yielding exactly when yielding would push `ack_pending` over
the limit. -/
theorem manual_acking_pending_limit :
    (∀ (limit : Nat) (ops : List ManualOp),
      (manualRun limit ops).ackPending =
          (manualRun limit ops).yieldedN - (manualRun limit ops).ackedN
      ∧ (manualRun limit ops).ackedN ≤ (manualRun limit ops).yieldedN
      ∧ (manualRun limit ops).ackPending ≤ limit)
    ∧ (∀ (limit : Nat) (ops : List ManualOp),
      (manualStep limit (manualRun limit ops) ManualOp.opYield).2 = true
        ↔ (manualRun limit ops).ackPending + 1 > limit)
    ∧ (∀ (limit : Nat) (ops : List ManualOp),
      (manualStep limit (manualRun limit ops) ManualOp.opYield).2 = true →
        (manualStep limit (manualRun limit ops) ManualOp.opYield).1 =
          manualRun limit ops) := by
  refine ⟨manualRun_invariant, ?_, ?_⟩
  · intro limit ops
    by_cases h : (manualRun limit ops).ackPending + 1 > limit <;>
      simp [manualStep, h]
  · intro limit ops h
    by_cases hgt : (manualRun limit ops).ackPending + 1 > limit
    · simp [manualStep, hgt]
    · simp [manualStep, hgt] at h

/-- Components of `urllib.parse.urlparse(url)` as the AMQP adapter reads
them (the URL parser itself is the standard library's). -/
structure UrlParts where
  scheme : String
  hostname : Option String
  port : Option Nat
  path : String
  username : Option String
  password : Option String
deriving DecidableEq, Repr

/-- Python truthiness of an optional string (None and "" are falsy). -/
def truthyOS : Option String → Bool
  | none => false
  | some s => s ≠ ""

/-- Keep a string component only when truthy (the adapter filters falsy
components out of the connection-parameter dict). -/
def keepTruthy : Option String → Option String
  | none => none
  | some s => if s = "" then none else some s

/-- The connection-parameter dict built by `_parse_url` after filtering. -/
structure ConnParams where
  scheme : Option String
  host : Option String
  port : Option Nat
  virtual_host : Option String
deriving DecidableEq, Repr

/-- `_parse_url` (broker_clients/rabbitmq.py lines 33-51): build the
parameter dict from the parsed URL, filter falsy entries, and reject the
address when no host survives. -/
def parse_url (u : UrlParts) :
    Except String (ConnParams × Option String × Option String) :=
  let parts : ConnParams :=
    { scheme := keepTruthy (some u.scheme)
      host := keepTruthy u.hostname
      port := match u.port with | none => none | some 0 => none | some p => some p
      virtual_host := keepTruthy (some (u.path.dropWhile (fun c => c = '/'))) }
  if parts.host = none then
    Except.error "Invalid address"
  else
    Except.ok (parts, u.username, u.password)

/-- `_get_credentials` (broker_clients/rabbitmq.py lines 54-71): an auth
token substitutes for the password; username+password yield credentials;
a password or token alone yields credentials with an empty username
(keycloak-style); a username alone is an error; no auth yields none. -/
def get_credentials (username password : Option String) (auth_token : String) :
    Except String (Option (String × String)) :=
  let password := if auth_token ≠ "" then some auth_token else password
  if truthyOS username && truthyOS password then
    Except.ok (some (username.getD "", password.getD ""))
  else if !truthyOS username && truthyOS password then
    Except.ok (some ("", password.getD ""))
  else if truthyOS username && !truthyOS password then
    Except.error "username given but no password or token"
  else
    Except.ok none

/-- Counterexample to claim C7: a password supplied without a username is
NOT an error — `_get_credentials` deliberately accepts it (keycloak-style)
and returns credentials with an empty username. -/
theorem password_without_username_not_rejected :
    get_credentials none (some "hunter2") "" =
      Except.ok (some ("", "hunter2"))
    ∧ ∀ s, get_credentials none (some "hunter2") "" ≠ Except.error s := by
  refine ⟨rfl, ?_⟩
  intro s h
  simp [get_credentials, truthyOS] at h

/-- Claim C7 as amended: an address whose parsed host is missing (absent
or empty) is rejected by `_parse_url`; a username supplied without a
password or token is an error; but a password (or, via the token
substitution, an auth token) supplied without a username is accepted and
yields credentials with an empty username. -/
theorem amqp_address_and_credential_validation :
    (∀ u : UrlParts, keepTruthy u.hostname = none →
      parse_url u = Except.error "Invalid address")
    ∧ (∀ user pw : Option String, truthyOS user = true → truthyOS pw = false →
      get_credentials user pw "" =
        Except.error "username given but no password or token")
    ∧ (∀ p : String, p ≠ "" →
      get_credentials none (some p) "" = Except.ok (some ("", p)))
    ∧ (∀ tok : String, tok ≠ "" →
      get_credentials none none tok = Except.ok (some ("", tok))) := by
  refine ⟨?_, ?_, ?_, ?_⟩
  · intro u h
    simp [parse_url, h]
  · intro user pw hu hp
    simp [get_credentials, hu, hp]
  · intro p hp
    simp [get_credentials, truthyOS, hp]
  · intro tok htok
    simp [get_credentials, truthyOS, htok]

/-- Witness for the amended C7 at concrete inputs. -/
theorem amqp_address_and_credential_validation_witness :
    (keepTruthy (UrlParts.mk "amqp" none none "" none none).hostname = none
      ∧ parse_url (UrlParts.mk "amqp" none none "" none none) =
          Except.error "Invalid address")
    ∧ (truthyOS (some "alice") = true ∧ truthyOS none = false
      ∧ get_credentials (some "alice") none "" =
          Except.error "username given but no password or token")
    ∧ ("hunter2" ≠ "" ∧
        get_credentials none (some "hunter2") "" =
          Except.ok (some ("", "hunter2"))) := by
  refine ⟨⟨rfl, ?_⟩, ⟨rfl, rfl, ?_⟩, ⟨by decide, ?_⟩⟩
  · exact amqp_address_and_credential_validation.1
      (UrlParts.mk "amqp" none none "" none none) rfl
  · exact amqp_address_and_credential_validation.2.1 (some "alice") none rfl rfl
  · exact amqp_address_and_credential_validation.2.2.1 "hunter2" (by decide)

/-- The fields `Queue.__init__` stores after validation. -/
structure QueueInit where
  prefetch : Int
  timeout : Int
  ack_timeout : Option Int
deriving DecidableEq, Repr

/-- The `timeout` property setter (queue.py lines 90-95): values below 1
raise `ValueError`. -/
def timeout_setter (val : Int) : Except String Int :=
  if val < 1 then Except.error "timeout must be positive" else Except.ok val

/-- `Queue.__init__` (queue.py lines 51-75): `prefetch` is stored without
validation; a set but non-positive `ack_timeout` raises; the `timeout`
assignment goes through the property setter. -/
def queue_init (prefetch timeout : Int) (ack_timeout : Option Int) :
    Except String QueueInit :=
  if (match ack_timeout with
      | some v => decide (v ≤ 0)
      | none => false) then
    Except.error "timeout must be positive"
  else
    match timeout_setter timeout with
    | Except.error s => Except.error s
    | Except.ok t => Except.ok ⟨prefetch, t, ack_timeout⟩

/-- Counterexample to claim C8: constructing a `Queue` with
`prefetch = 0` (below 1) succeeds — `Queue.__init__` never validates
`prefetch`. -/
theorem queue_init_accepts_prefetch_zero :
    queue_init 0 60 none = Except.ok ⟨0, 60, none⟩ := by
  rfl

/-- Claim C8 as amended: `Queue` construction validates `timeout`
(values below 1 second raise on assignment) and `ack_timeout` (set but
non-positive raises; unset and positive are accepted), but stores
`prefetch` without any validation. -/
theorem queue_init_validation :
    (∀ p : Int, queue_init p 60 none = Except.ok ⟨p, 60, none⟩)
    ∧ (∀ (p t : Int), t < 1 →
        queue_init p t none = Except.error "timeout must be positive")
    ∧ (∀ (p t v : Int), v ≤ 0 →
        queue_init p t (some v) = Except.error "timeout must be positive")
    ∧ (∀ (p t v : Int), 1 ≤ t → 1 ≤ v →
        queue_init p t (some v) = Except.ok ⟨p, t, some v⟩)
    ∧ (∀ (p t : Int), 1 ≤ t →
        queue_init p t none = Except.ok ⟨p, t, none⟩) := by
  refine ⟨?_, ?_, ?_, ?_, ?_⟩
  · intro p; rfl
  · intro p t ht
    simp [queue_init, timeout_setter, ht]
  · intro p t v hv
    simp [queue_init, hv]
  · intro p t v ht hv
    have h1 : ¬(v ≤ 0) := by omega
    have h2 : ¬(t < 1) := by omega
    simp [queue_init, timeout_setter, h1, h2]
  · intro p t ht
    have h2 : ¬(t < 1) := by omega
    simp [queue_init, timeout_setter, h2]

/-- Witness for the amended C8 at concrete inputs. -/
theorem queue_init_validation_witness :
    ((0 : Int) < 1 ∧ queue_init 5 0 none =
        Except.error "timeout must be positive")
    ∧ ((-3 : Int) ≤ 0 ∧ queue_init 1 60 (some (-3)) =
        Except.error "timeout must be positive")
    ∧ ((1 : Int) ≤ 60 ∧ (1 : Int) ≤ 10 ∧
        queue_init 1 60 (some 10) = Except.ok ⟨1, 60, some 10⟩) := by
  refine ⟨⟨by norm_num, ?_⟩, ⟨by norm_num, ?_⟩, ⟨by norm_num, by norm_num, ?_⟩⟩
  · exact queue_init_validation.2.1 5 0 (by norm_num)
  · exact queue_init_validation.2.2.1 1 60 (-3) (by norm_num)
  · exact queue_init_validation.2.2.2.1 1 60 10 (by norm_num) (by norm_num)
